import Mathlib

/-!
Verification of the `wildmap/geo` 2D geometry kernel.

The repository contains two generations of the same package (an `int32`
legacy copy and an `int64` rewrite with identical algorithms).  Machine
integers are modelled by `ℤ`, following the claims' proviso that coordinate
differences and their products do not overflow the fixed integer width;
Go's truncated integer division (`/` on machine integers, rounding toward
zero) is modelled by `Int.tdiv`.  Exact floating-point computations on
integer inputs (divisions followed by truncation to the grid) are modelled
over `ℚ`, and genuinely transcendental paths (`math.Sqrt`, `math.Acos`)
over `ℝ`.
-/

namespace Geo

/-- `Coord` from coord.go: a grid point with integer `X`/`Z` components. -/
structure Coord where
  x : ℤ
  z : ℤ
  deriving DecidableEq, Repr

/-- `Vector` from vector.go: an integer displacement. -/
structure Vector where
  x : ℤ
  z : ℤ
  deriving DecidableEq, Repr

/-- `NewVector(start, end)` from vector.go: displacement from `start` to `end`. -/
def NewVector (s e : Coord) : Vector := ⟨e.x - s.x, e.z - s.z⟩

/-- `NewVectorByCoord(p)` from vector.go: position vector of `p`. -/
def NewVectorByCoord (p : Coord) : Vector := ⟨p.x, p.z⟩

namespace Vector

/-- `Vector.Cross` from vector.go: z-component `v.X*vec.Z - v.Z*vec.X`. -/
def Cross (v vec : Vector) : ℤ := v.x * vec.z - v.z * vec.x

/-- `Vector.Dot` from vector.go (exact integer value of the float result). -/
def Dot (v vec : Vector) : ℤ := v.x * vec.x + v.z * vec.z

/-- `Vector.LengthSquared` from vector.go (exact integer value). -/
def LengthSquared (v : Vector) : ℤ := v.x * v.x + v.z * v.z

end Vector

/-- `Vertice` from edge.go: a vertex with a globally assigned identity. -/
structure Vertice where
  index : ℤ
  coord : Coord
  deriving DecidableEq, Repr

instance : Inhabited Coord := ⟨⟨0, 0⟩⟩

instance : Inhabited Vertice := ⟨⟨0, ⟨0, 0⟩⟩⟩

/-- `cross(p1, p2, p3)` from vector.go: `(p1-p3) × (p2-p3)`. -/
def crossPt (p1 p2 p3 : Coord) : ℤ :=
  (p1.x - p3.x) * (p2.z - p3.z) - (p2.x - p3.x) * (p1.z - p3.z)

/-- `CrossProduct(p1, p2, p3)` from the orientation module
(src/unnamed/part_001): the sign of `(p2-p1) × (p3-p2)`. -/
def CrossProduct (p1 p2 p3 : Vertice) : ℤ :=
  let ax := p2.coord.x - p1.coord.x
  let az := p2.coord.z - p1.coord.z
  let bx := p3.coord.x - p2.coord.x
  let bz := p3.coord.z - p2.coord.z
  let cp := ax * bz - az * bx
  if cp > 0 then 1 else if cp < 0 then -1 else 0

/-- One step of the `IsConvex` loop (src/unnamed/part_001): the cross
product of the vectors `vertices[i] → vertices[(i+1) % n]` and
`vertices[i] → vertices[(i+2) % n]`. -/
def convexCrossAt (vertices : List Vertice) (i : ℕ) : ℤ :=
  let n := vertices.length
  let vi := (vertices.getD (i % n) default).coord
  let v1 := (vertices.getD ((i + 1) % n) default).coord
  let v2 := (vertices.getD ((i + 2) % n) default).coord
  Vector.Cross (NewVector vi v1) (NewVector vi v2)

/-- `IsConvex(vertices)` (src/unnamed/part_001): fold over all vertex
triples keeping the `positiveFlag`/`negativeFlag` pair, returning their
XOR. -/
def IsConvex (vertices : List Vertice) : Bool :=
  let flags := (List.range vertices.length).foldl
    (fun (fl : Bool × Bool) i =>
      if convexCrossAt vertices i > 0 then (true, fl.2) else (fl.1, true))
    (false, false)
  flags.1 != flags.2

/-- Collinearity of three grid points: they lie on a common line
`a*x + b*z = c` with `(a, b) ≠ (0, 0)`. -/
def Collinear3 (p1 p2 p3 : Coord) : Prop :=
  ∃ a b c : ℤ, (a ≠ 0 ∨ b ≠ 0) ∧
    a * p1.x + b * p1.z = c ∧ a * p2.x + b * p2.z = c ∧ a * p3.x + b * p3.z = c

lemma crossProduct_eq_sign (p1 p2 p3 : Vertice) :
    CrossProduct p1 p2 p3 =
      Int.sign ((p2.coord.x - p1.coord.x) * (p3.coord.z - p2.coord.z) -
        (p2.coord.z - p1.coord.z) * (p3.coord.x - p2.coord.x)) := by
  simp only [CrossProduct]
  split_ifs with h1 h2
  · exact (Int.sign_eq_one_iff_pos.mpr h1).symm
  · exact (Int.sign_eq_neg_one_iff_neg.mpr h2).symm
  · have h0 : (p2.coord.x - p1.coord.x) * (p3.coord.z - p2.coord.z) -
        (p2.coord.z - p1.coord.z) * (p3.coord.x - p2.coord.x) = 0 := by omega
    rw [h0]; rfl

lemma collinear3_iff (p1 p2 p3 : Coord) :
    Collinear3 p1 p2 p3 ↔
      (p2.x - p1.x) * (p3.z - p2.z) - (p2.z - p1.z) * (p3.x - p2.x) = 0 := by
  constructor
  · rintro ⟨a, b, c, hab, h1, h2, h3⟩
    have e1 : a * (p2.x - p1.x) + b * (p2.z - p1.z) = 0 := by linarith
    have e2 : a * (p3.x - p2.x) + b * (p3.z - p2.z) = 0 := by linarith
    have ha : a * ((p2.x - p1.x) * (p3.z - p2.z) - (p2.z - p1.z) * (p3.x - p2.x)) = 0 := by
      linear_combination (p3.z - p2.z) * e1 - (p2.z - p1.z) * e2
    have hb : b * ((p2.x - p1.x) * (p3.z - p2.z) - (p2.z - p1.z) * (p3.x - p2.x)) = 0 := by
      linear_combination (p2.x - p1.x) * e2 - (p3.x - p2.x) * e1
    rcases hab with h | h
    · exact (mul_eq_zero.mp ha).resolve_left h
    · exact (mul_eq_zero.mp hb).resolve_left h
  · intro hdet
    by_cases h12 : p1.x = p2.x ∧ p1.z = p2.z
    · by_cases h13 : p1.x = p3.x ∧ p1.z = p3.z
      · exact ⟨1, 0, p1.x, Or.inl one_ne_zero, by ring, by rw [← h12.1]; ring,
          by rw [← h13.1]; ring⟩
      · -- line through p1 and p3
        refine ⟨p3.z - p1.z, -(p3.x - p1.x), (p3.z - p1.z) * p1.x - (p3.x - p1.x) * p1.z,
          ?_, by ring, ?_, by ring⟩
        · rcases not_and_or.mp h13 with h | h
          · exact Or.inr (by intro hz; exact h (by omega))
          · exact Or.inl (by intro hz; exact h (by omega))
        · rw [← h12.1, ← h12.2]; ring
    · -- line through p1 and p2
      refine ⟨p2.z - p1.z, -(p2.x - p1.x), (p2.z - p1.z) * p1.x - (p2.x - p1.x) * p1.z,
        ?_, by ring, by ring, ?_⟩
      · rcases not_and_or.mp h12 with h | h
        · exact Or.inr (by intro hz; exact h (by omega))
        · exact Or.inl (by intro hz; exact h (by omega))
      · linear_combination -hdet

lemma foldl_convex_flags (p : ℕ → Prop) [DecidablePred p] :
    ∀ (L : List ℕ) (b1 b2 : Bool),
      L.foldl (fun (fl : Bool × Bool) i => if p i then (true, fl.2) else (fl.1, true)) (b1, b2) =
        (b1 || L.any fun i => decide (p i), b2 || L.any fun i => !decide (p i))
  | [], b1, b2 => by simp
  | i :: L, b1, b2 => by
    by_cases h : p i <;>
      simp [List.foldl_cons, h, foldl_convex_flags p L, Bool.or_assoc]

/-- C8: for all vertex triples, `CrossProduct(p1,p2,p3) == -CrossProduct(p3,p2,p1)`,
and `CrossProduct(p1,p2,p3) == 0` iff the three points are collinear
(lie on a common line `a*x + b*z = c` with `(a,b) ≠ (0,0)`). -/
theorem crossProduct_antisymm_and_collinear (p1 p2 p3 : Vertice) :
    CrossProduct p1 p2 p3 = -CrossProduct p3 p2 p1 ∧
      (CrossProduct p1 p2 p3 = 0 ↔ Collinear3 p1.coord p2.coord p3.coord) := by
  constructor
  · rw [crossProduct_eq_sign, crossProduct_eq_sign, ← Int.sign_neg]
    congr 1
    ring
  · rw [crossProduct_eq_sign, Int.sign_eq_zero_iff_zero, collinear3_iff]

/-- C6: `IsConvex(vertices)` is true iff exactly one of the two buckets got a
vote, where index `i` (modulo the length) votes "positive" when the cross
product of the vectors `vertices[i] → vertices[i+1]` and
`vertices[i] → vertices[i+2]` is strictly positive and "non-positive"
otherwise (an exactly-zero cross product lands in the non-positive bucket). -/
theorem isConvex_eq_one_bucket (vertices : List Vertice) :
    IsConvex vertices =
      (((List.range vertices.length).any fun i => decide (0 < convexCrossAt vertices i)) !=
        ((List.range vertices.length).any fun i => decide (convexCrossAt vertices i ≤ 0))) := by
  unfold IsConvex
  rw [foldl_convex_flags (fun i => convexCrossAt vertices i > 0)]
  have hneg : ∀ i : ℕ, (!decide (convexCrossAt vertices i > 0)) =
      decide (convexCrossAt vertices i ≤ 0) := by
    intro i
    by_cases h : convexCrossAt vertices i > 0 <;> simp [h, not_lt.mp, le_of_not_lt]
  simp only [Bool.false_or, hneg]

/-- `Triangle` from triangle.go (the cached `Center` is spelled out; the
adjacency metadata not used by the claims is kept as plain data). -/
structure Triangle where
  index : ℤ
  vertices : List Vertice
  edgeIDs : List ℤ
  center : Coord
  deriving DecidableEq, Repr

/-- `Triangle.IsCoordInside(p)` from triangle.go: the three cross products
of the vectors from `p` to the vertices, pairwise compared with `>= 0`. -/
def Triangle.IsCoordInside (t : Triangle) (p : Coord) : Bool :=
  let pa := NewVector p (t.vertices.getD 0 default).coord
  let pb := NewVector p (t.vertices.getD 1 default).coord
  let pc := NewVector p (t.vertices.getD 2 default).coord
  let b1 : Bool := decide (0 ≤ pa.Cross pb)
  let b2 : Bool := decide (0 ≤ pb.Cross pc)
  if b1 != b2 then false
  else
    let b3 : Bool := decide (0 ≤ pc.Cross pa)
    b2 == b3

/-- `Convex` from convex.go. -/
structure Convex where
  index : ℤ
  vertices : List Vertice
  mergeTriangles : List Triangle
  edgeIDs : List ℤ
  wtCoord : Coord
  deriving DecidableEq, Repr

/-- `NewConvex(t, id)` from convex.go: a singleton convex wrapping the
triangle's three vertices (`WtCoord` keeps Go's zero value). -/
def NewConvex (t : Triangle) (id : ℤ) : Convex :=
  { index := id
    vertices := [t.vertices.getD 0 default, t.vertices.getD 1 default, t.vertices.getD 2 default]
    mergeTriangles := [t]
    edgeIDs := t.edgeIDs
    wtCoord := ⟨0, 0⟩ }

/-- `Convex.MergeTriangle(p1, p2, p3)` from convex.go, as a pure function
returning the success flag together with the updated polygon.  The Go loop
stops at the first vertex matching either shared identity (`findIdx?`);
each branch tries `p3` as given and then reversed, committing the first
candidate list that passes `IsConvex`. -/
def Convex.MergeTriangle (c : Convex) (p1 p2 : Vertice) (p3 : List Vertice) : Bool × Convex :=
  match c.vertices.findIdx? (fun v => v.index == p1.index || v.index == p2.index) with
  | none => (false, c)
  | some index =>
    let candidates :=
      if index ≠ 0 ∨ (c.vertices.getD (index + 1) default).index = p2.index ∨
          (c.vertices.getD (index + 1) default).index = p1.index then
        [c.vertices.take (index + 1) ++ p3 ++ c.vertices.drop (index + 1),
          c.vertices.take (index + 1) ++ p3.reverse ++ c.vertices.drop (index + 1)]
      else
        [c.vertices ++ p3, c.vertices ++ p3.reverse]
    match candidates.find? IsConvex with
    | some l => (true, { c with vertices := l })
    | none => (false, c)

/-- C2: every `MergeTriangle` call either succeeds and the committed vertex
list satisfies `IsConvex`, or fails and leaves `Vertices` exactly as it was. -/
theorem mergeTriangle_convex_or_unchanged (c : Convex) (p1 p2 : Vertice) (p3 : List Vertice) :
    ((c.MergeTriangle p1 p2 p3).1 = true →
      IsConvex (c.MergeTriangle p1 p2 p3).2.vertices = true) ∧
    ((c.MergeTriangle p1 p2 p3).1 = false →
      (c.MergeTriangle p1 p2 p3).2.vertices = c.vertices) := by
  unfold Convex.MergeTriangle
  rcases hf : c.vertices.findIdx? (fun v => v.index == p1.index || v.index == p2.index) with
    _ | index
  · simp [hf]
  · simp only [hf]
    rcases hfind : (if index ≠ 0 ∨ (c.vertices.getD (index + 1) default).index = p2.index ∨
          (c.vertices.getD (index + 1) default).index = p1.index then
        [c.vertices.take (index + 1) ++ p3 ++ c.vertices.drop (index + 1),
          c.vertices.take (index + 1) ++ p3.reverse ++ c.vertices.drop (index + 1)]
      else
        [c.vertices ++ p3, c.vertices ++ p3.reverse]).find? IsConvex with _ | l
    · simp [hfind]
    · simp only [hfind]
      exact ⟨fun _ => List.find?_some hfind, by simp⟩

/-- Witness for C2: merging the triangle `(10,0),(0,10),(10,10)` into the
singleton square-corner triangle succeeds and yields a convex list. -/
theorem mergeTriangle_convex_or_unchanged_witness :
    ((NewConvex ⟨0, [⟨1, ⟨0, 0⟩⟩, ⟨2, ⟨10, 0⟩⟩, ⟨3, ⟨0, 10⟩⟩], [], ⟨0, 0⟩⟩ 0).MergeTriangle
        ⟨2, ⟨10, 0⟩⟩ ⟨3, ⟨0, 10⟩⟩ [⟨4, ⟨10, 10⟩⟩]).1 = true ∧
    IsConvex ((NewConvex ⟨0, [⟨1, ⟨0, 0⟩⟩, ⟨2, ⟨10, 0⟩⟩, ⟨3, ⟨0, 10⟩⟩], [], ⟨0, 0⟩⟩ 0).MergeTriangle
        ⟨2, ⟨10, 0⟩⟩ ⟨3, ⟨0, 10⟩⟩ [⟨4, ⟨10, 10⟩⟩]).2.vertices = true :=
  ⟨by decide,
    (mergeTriangle_convex_or_unchanged _ _ _ _).1 (by decide)⟩

/-- C10: `MergeTriangle` never touches any field other than `Vertices`:
`Index`, `MergeTriangles`, `EdgeIDs` and `WtCoord` keep their prior values
whether the merge succeeds or fails — in particular a successful merge does
not add the merged triangle to `MergeTriangles` nor its edge keys to
`EdgeIDs`. -/
theorem mergeTriangle_frame (c : Convex) (p1 p2 : Vertice) (p3 : List Vertice) :
    (c.MergeTriangle p1 p2 p3).2.index = c.index ∧
    (c.MergeTriangle p1 p2 p3).2.mergeTriangles = c.mergeTriangles ∧
    (c.MergeTriangle p1 p2 p3).2.edgeIDs = c.edgeIDs ∧
    (c.MergeTriangle p1 p2 p3).2.wtCoord = c.wtCoord := by
  unfold Convex.MergeTriangle
  rcases hf : c.vertices.findIdx? (fun v => v.index == p1.index || v.index == p2.index) with
    _ | index
  · simp [hf]
  · simp only [hf]
    rcases hfind : (if index ≠ 0 ∨ (c.vertices.getD (index + 1) default).index = p2.index ∨
          (c.vertices.getD (index + 1) default).index = p1.index then
        [c.vertices.take (index + 1) ++ p3 ++ c.vertices.drop (index + 1),
          c.vertices.take (index + 1) ++ p3.reverse ++ c.vertices.drop (index + 1)]
      else
        [c.vertices ++ p3, c.vertices ++ p3.reverse]).find? IsConvex with _ | l <;>
      simp [hfind]

/-- The `pointsIndexs` slice built inside `Convex.GetNeighborPoints`
(convex.go): for each vertex of `c` in order, every position `j` of the
other polygon's vertex list carrying the same `Index`, in ascending order. -/
def neighborMatches (c : Convex) (vertices : List Vertice) : List ℕ :=
  c.vertices.flatMap fun v =>
    (List.range vertices.length).filter fun j => v.index == (vertices.getD j default).index

/-- `Convex.GetNeighborPoints(t2)` from convex.go.  The Go method consumes
`t2.GetVertices()`; the model takes that vertex list directly, and Go's
`nil` result is `none`. -/
def Convex.GetNeighborPoints (c : Convex) (vertices : List Vertice) : Option (List Vertice) :=
  let numOfVecs := vertices.length
  match neighborMatches c vertices with
  | [first, second] =>
    let first := if (first + 1) % numOfVecs ≠ second then second else first
    some ((List.range numOfVecs).map fun i => vertices.getD ((first + i) % numOfVecs) default)
  | _ => none

lemma neighborMatches_mem_lt (c : Convex) (vs : List Vertice) {j : ℕ}
    (h : j ∈ neighborMatches c vs) : j < vs.length := by
  unfold neighborMatches at h
  rw [List.mem_flatMap] at h
  obtain ⟨v, _, hj⟩ := h
  exact List.mem_range.mp (List.mem_filter.mp hj).1

lemma map_range_mod_eq_rotate (l : List Vertice) (s : ℕ) (hs : s < l.length) :
    ((List.range l.length).map fun i => l.getD ((s + i) % l.length) default) = l.rotate s := by
  have hn : 0 < l.length := Nat.lt_of_le_of_lt (Nat.zero_le s) hs
  apply List.ext_getElem
  · simp
  · intro i h1 h2
    have hi : i < l.length := by simpa using h1
    rw [List.getElem_map, List.getElem_range, List.getElem_rotate,
      List.getD_eq_getElem?_getD, Nat.add_comm s i,
      List.getElem?_eq_getElem (Nat.mod_lt _ hn), Option.getD_some]

lemma rotate_getD_zero (l : List Vertice) (s : ℕ) (hs : s < l.length) :
    (l.rotate s).getD 0 default = l.getD s default := by
  have hn : 0 < l.length := Nat.lt_of_le_of_lt (Nat.zero_le s) hs
  rw [List.getD_eq_getElem?_getD, List.getElem?_rotate hn, Nat.zero_add,
    Nat.mod_eq_of_lt hs, ← List.getD_eq_getElem?_getD]

lemma rotate_getD_one (l : List Vertice) (s o : ℕ) (h2 : 2 ≤ l.length)
    (ho : (s + 1) % l.length = o) :
    (l.rotate s).getD 1 default = l.getD o default := by
  have h1 : 1 < l.length := h2
  rw [List.getD_eq_getElem?_getD, List.getElem?_rotate h1, Nat.add_comm 1 s, ho,
    ← List.getD_eq_getElem?_getD]

/-- C3 (amended): when the `pointsIndexs` scan finds any number of shared
identities other than two, `GetNeighborPoints` returns `nil`; when it finds
exactly two, at positions of `t2`'s list that are cyclically adjacent, the
result is `t2`'s full vertex list cyclically rotated (preserving its order
and direction) so that its first two entries are the two shared vertices.
(For two shared positions that are not cyclically adjacent the result's
second entry need not be shared — see the counterexample.) -/
theorem getNeighborPoints_spec (c : Convex) (vs : List Vertice) :
    ((neighborMatches c vs).length ≠ 2 → c.GetNeighborPoints vs = none) ∧
    (∀ a b : ℕ, 2 ≤ vs.length → neighborMatches c vs = [a, b] →
      ((a + 1) % vs.length = b ∨ (b + 1) % vs.length = a) →
      ∃ s o : ℕ, ((s = a ∧ o = b) ∨ (s = b ∧ o = a)) ∧ (s + 1) % vs.length = o ∧
        c.GetNeighborPoints vs = some (vs.rotate s) ∧
        (vs.rotate s).getD 0 default = vs.getD s default ∧
        (vs.rotate s).getD 1 default = vs.getD o default) := by
  constructor
  · intro h
    unfold Convex.GetNeighborPoints
    rcases hm2 : neighborMatches c vs with _ | ⟨x, _ | ⟨y, _ | ⟨z, t⟩⟩⟩
    · rfl
    · rfl
    · exact absurd (by rw [hm2]; rfl) h
    · rfl
  · intro a b hn hm hadj
    have ha : a < vs.length := neighborMatches_mem_lt c vs (by rw [hm]; simp)
    have hb : b < vs.length := neighborMatches_mem_lt c vs (by rw [hm]; simp)
    by_cases hc : (a + 1) % vs.length = b
    · refine ⟨a, b, Or.inl ⟨rfl, rfl⟩, hc, ?_, rotate_getD_zero vs a ha,
        rotate_getD_one vs a b hn hc⟩
      unfold Convex.GetNeighborPoints
      rw [hm]
      simp only
      rw [if_neg (by simpa using hc), map_range_mod_eq_rotate vs a ha]
    · have hc2 : (b + 1) % vs.length = a := hadj.resolve_left hc
      refine ⟨b, a, Or.inr ⟨rfl, rfl⟩, hc2, ?_, rotate_getD_zero vs b hb,
        rotate_getD_one vs b a hn hc2⟩
      unfold Convex.GetNeighborPoints
      rw [hm]
      simp only
      rw [if_pos (by simpa using hc), map_range_mod_eq_rotate vs b hb]

/-- Witness for C3: two polygons sharing exactly the identities `1` and `2`
at cyclically adjacent positions of the second polygon's list. -/
theorem getNeighborPoints_spec_witness :
    2 ≤ ([⟨1, ⟨0, 0⟩⟩, ⟨2, ⟨5, 5⟩⟩, ⟨9, ⟨7, 0⟩⟩, ⟨8, ⟨1, 8⟩⟩] : List Vertice).length ∧
    ∃ s o : ℕ, ((s = 0 ∧ o = 1) ∨ (s = 1 ∧ o = 0)) ∧ (s + 1) % 4 = o ∧
      Convex.GetNeighborPoints ⟨0, [⟨1, ⟨0, 0⟩⟩, ⟨2, ⟨5, 5⟩⟩, ⟨3, ⟨0, 9⟩⟩], [], [], ⟨0, 0⟩⟩
          [⟨1, ⟨0, 0⟩⟩, ⟨2, ⟨5, 5⟩⟩, ⟨9, ⟨7, 0⟩⟩, ⟨8, ⟨1, 8⟩⟩] =
        some (([⟨1, ⟨0, 0⟩⟩, ⟨2, ⟨5, 5⟩⟩, ⟨9, ⟨7, 0⟩⟩, ⟨8, ⟨1, 8⟩⟩] : List Vertice).rotate s) ∧
      (([⟨1, ⟨0, 0⟩⟩, ⟨2, ⟨5, 5⟩⟩, ⟨9, ⟨7, 0⟩⟩, ⟨8, ⟨1, 8⟩⟩] : List Vertice).rotate s).getD 0
          default =
        ([⟨1, ⟨0, 0⟩⟩, ⟨2, ⟨5, 5⟩⟩, ⟨9, ⟨7, 0⟩⟩, ⟨8, ⟨1, 8⟩⟩] : List Vertice).getD s default ∧
      (([⟨1, ⟨0, 0⟩⟩, ⟨2, ⟨5, 5⟩⟩, ⟨9, ⟨7, 0⟩⟩, ⟨8, ⟨1, 8⟩⟩] : List Vertice).rotate s).getD 1
          default =
        ([⟨1, ⟨0, 0⟩⟩, ⟨2, ⟨5, 5⟩⟩, ⟨9, ⟨7, 0⟩⟩, ⟨8, ⟨1, 8⟩⟩] : List Vertice).getD o default :=
  ⟨by decide,
    (getNeighborPoints_spec ⟨0, [⟨1, ⟨0, 0⟩⟩, ⟨2, ⟨5, 5⟩⟩, ⟨3, ⟨0, 9⟩⟩], [], [], ⟨0, 0⟩⟩
        [⟨1, ⟨0, 0⟩⟩, ⟨2, ⟨5, 5⟩⟩, ⟨9, ⟨7, 0⟩⟩, ⟨8, ⟨1, 8⟩⟩]).2 0 1 (by decide) (by decide)
      (Or.inl (by decide))⟩

/-- Counterexample for C3 as stated: the polygons share exactly the two
identities `1` and `2`, which sit at the non-adjacent positions `0` and `2`
of the second polygon's four-vertex list; the returned rotation starts at
position `2`, so its second entry is the unshared vertex with identity `8`. -/
theorem getNeighborPoints_nonadjacent_cex :
    neighborMatches ⟨0, [⟨1, ⟨0, 0⟩⟩, ⟨2, ⟨5, 5⟩⟩, ⟨3, ⟨0, 9⟩⟩], [], [], ⟨0, 0⟩⟩
        [⟨1, ⟨0, 0⟩⟩, ⟨9, ⟨7, 0⟩⟩, ⟨2, ⟨5, 5⟩⟩, ⟨8, ⟨1, 8⟩⟩] = [0, 2] ∧
    Convex.GetNeighborPoints ⟨0, [⟨1, ⟨0, 0⟩⟩, ⟨2, ⟨5, 5⟩⟩, ⟨3, ⟨0, 9⟩⟩], [], [], ⟨0, 0⟩⟩
        [⟨1, ⟨0, 0⟩⟩, ⟨9, ⟨7, 0⟩⟩, ⟨2, ⟨5, 5⟩⟩, ⟨8, ⟨1, 8⟩⟩] =
      some [⟨2, ⟨5, 5⟩⟩, ⟨8, ⟨1, 8⟩⟩, ⟨1, ⟨0, 0⟩⟩, ⟨9, ⟨7, 0⟩⟩] ∧
    ¬ ((((Convex.GetNeighborPoints ⟨0, [⟨1, ⟨0, 0⟩⟩, ⟨2, ⟨5, 5⟩⟩, ⟨3, ⟨0, 9⟩⟩], [], [], ⟨0, 0⟩⟩
            [⟨1, ⟨0, 0⟩⟩, ⟨9, ⟨7, 0⟩⟩, ⟨2, ⟨5, 5⟩⟩, ⟨8, ⟨1, 8⟩⟩]).getD []).getD 1 default).index = 1 ∨
        (((Convex.GetNeighborPoints ⟨0, [⟨1, ⟨0, 0⟩⟩, ⟨2, ⟨5, 5⟩⟩, ⟨3, ⟨0, 9⟩⟩], [], [], ⟨0, 0⟩⟩
            [⟨1, ⟨0, 0⟩⟩, ⟨9, ⟨7, 0⟩⟩, ⟨2, ⟨5, 5⟩⟩, ⟨8, ⟨1, 8⟩⟩]).getD []).getD 1 default).index = 2) := by
  refine ⟨by decide, by decide, by decide⟩

/-- Go's conversion of a float to a machine integer truncates toward zero;
on an exact rational value this is floor for nonnegative and ceiling for
negative arguments. -/
def ratTrunc (q : ℚ) : ℤ := if 0 ≤ q then ⌊q⌋ else ⌈q⌉

/-- `IsRectCross(p0, p1, q0, q1)` from segment.go: the bounding boxes of
the two segments overlap on both axes. -/
def IsRectCross (p0 p1 q0 q1 : Coord) : Bool :=
  decide (min p0.x p1.x ≤ max q0.x q1.x) && decide (min q0.x q1.x ≤ max p0.x p1.x) &&
    decide (min p0.z p1.z ≤ max q0.z q1.z) && decide (min q0.z q1.z ≤ max p0.z p1.z)

/-- `IsLineSegmentCross(p0, p1, q0, q1)` from segment.go: the straddle
test, with any exactly-zero orientation treated as an intersection. -/
def IsLineSegmentCross (p0 p1 q0 q1 : Coord) : Bool :=
  let b1 := crossPt q1 p0 q0
  let b2 := crossPt q1 p1 q0
  if b1 = 0 ∨ b2 = 0 then true
  else
    let a1 := crossPt p1 q0 p0
    let a2 := crossPt p1 q1 p0
    if a1 = 0 ∨ a2 = 0 then true
    else decide (decide (b1 < 0) ≠ decide (b2 < 0)) && decide (decide (a1 < 0) ≠ decide (a2 < 0))

/-- The intersection parameter `t` along `p0 → p1` computed in step 4 of
`GetCrossCoord` (segment.go), exact over `ℚ` (the Go float64 computation on
these integer inputs is the same rational expression). -/
def crossParamT (p0 p1 q0 q1 : Coord) : ℚ :=
  let s1X : ℚ := ((p1.x - p0.x : ℤ) : ℚ)
  let s1Z : ℚ := ((p1.z - p0.z : ℤ) : ℚ)
  let s2X : ℚ := ((q1.x - q0.x : ℤ) : ℚ)
  let s2Z : ℚ := ((q1.z - q0.z : ℤ) : ℚ)
  (s2X * ((p0.z - q0.z : ℤ) : ℚ) - s2Z * ((p0.x - q0.x : ℤ) : ℚ)) / (-s2X * s1Z + s1X * s2Z)

/-- `GetCrossCoord(p0, p1, q0, q1)` from segment.go: parallel check, then
bounding-box rejection, then straddle rejection, then the parametric
intersection point with each coordinate truncated to the grid. -/
def GetCrossCoord (p0 p1 q0 q1 : Coord) : Option Coord :=
  let v1 := NewVector p0 p1
  let v2 := NewVector q0 q1
  if v1.Cross v2 = 0 then none
  else if IsRectCross p0 p1 q0 q1 then
    if IsLineSegmentCross p0 p1 q0 q1 then
      let t := crossParamT p0 p1 q0 q1
      some ⟨p0.x + ratTrunc (t * ((p1.x - p0.x : ℤ) : ℚ)),
        p0.z + ratTrunc (t * ((p1.z - p0.z : ℤ) : ℚ))⟩
    else none
  else none

/-- C4: `GetCrossCoord` returns no intersection whenever the direction
vectors are parallel, or the bounding-box test fails, or the straddle test
fails; when all three checks pass it returns the truncated intersection
point for the parameter `t` along `p0 → p1`; and on the crossing diagonals
`(0,0)-(100,100)` and `(0,100)-(100,0)` it returns `(50,50)`. -/
theorem getCrossCoord_spec :
    (∀ p0 p1 q0 q1 : Coord,
      ((NewVector p0 p1).Cross (NewVector q0 q1) = 0 → GetCrossCoord p0 p1 q0 q1 = none) ∧
      (IsRectCross p0 p1 q0 q1 = false → GetCrossCoord p0 p1 q0 q1 = none) ∧
      (IsLineSegmentCross p0 p1 q0 q1 = false → GetCrossCoord p0 p1 q0 q1 = none) ∧
      ((NewVector p0 p1).Cross (NewVector q0 q1) ≠ 0 → IsRectCross p0 p1 q0 q1 = true →
        IsLineSegmentCross p0 p1 q0 q1 = true →
        GetCrossCoord p0 p1 q0 q1 =
          some ⟨p0.x + ratTrunc (crossParamT p0 p1 q0 q1 * ((p1.x - p0.x : ℤ) : ℚ)),
            p0.z + ratTrunc (crossParamT p0 p1 q0 q1 * ((p1.z - p0.z : ℤ) : ℚ))⟩)) ∧
    GetCrossCoord ⟨0, 0⟩ ⟨100, 100⟩ ⟨0, 100⟩ ⟨100, 0⟩ = some ⟨50, 50⟩ := by
  constructor
  · intro p0 p1 q0 q1
    refine ⟨fun h => ?_, fun h => ?_, fun h => ?_, fun h1 h2 h3 => ?_⟩
    · simp [GetCrossCoord, h]
    · simp [GetCrossCoord, h]
    · simp [GetCrossCoord, h]
    · simp only [GetCrossCoord]
      rw [if_neg h1, if_pos h2, if_pos h3]
  · simp only [GetCrossCoord]
    rw [if_neg (by decide), if_pos (by decide), if_pos (by decide)]
    have ht : crossParamT ⟨0, 0⟩ ⟨100, 100⟩ ⟨0, 100⟩ ⟨100, 0⟩ = 1 / 2 := by
      unfold crossParamT
      norm_num
    rw [ht]
    norm_num [ratTrunc]

/-- Witness for C4: a parallel pair is rejected, and a pair with disjoint
bounding boxes is rejected. -/
theorem getCrossCoord_spec_witness :
    GetCrossCoord ⟨0, 0⟩ ⟨1, 1⟩ ⟨0, 1⟩ ⟨1, 2⟩ = none ∧
    GetCrossCoord ⟨0, 0⟩ ⟨1, 1⟩ ⟨5, 0⟩ ⟨6, 2⟩ = none :=
  ⟨(getCrossCoord_spec.1 ⟨0, 0⟩ ⟨1, 1⟩ ⟨0, 1⟩ ⟨1, 2⟩).1 (by decide),
    (getCrossCoord_spec.1 ⟨0, 0⟩ ⟨1, 1⟩ ⟨5, 0⟩ ⟨6, 2⟩).2.1 (by decide)⟩

/-- One term of the running shoelace sum in `GetCenterCoord1` (convex.go):
`x_i*z_{i+1} - x_{i+1}*z_i`. -/
def shoelaceTerm (a b : Vertice) : ℤ := a.coord.x * b.coord.z - b.coord.x * a.coord.z

/-- One term of the `centerX` sum in `GetCenterCoord1` (convex.go). -/
def centerXTerm (a b : Vertice) : ℤ := (a.coord.x + b.coord.x) * shoelaceTerm a b

/-- One term of the `centerZ` sum in `GetCenterCoord1` (convex.go). -/
def centerZTerm (a b : Vertice) : ℤ := (a.coord.z + b.coord.z) * shoelaceTerm a b

/-- The loops `for i := 0; i < len(vertices)-1; i++` of `GetCenterCoord1`
accumulate a function of each consecutive vertex pair; `l.zip l.tail` is
exactly those pairs. -/
def chainSum (f : Vertice → Vertice → ℤ) (l : List Vertice) : ℤ :=
  ((l.zip l.tail).map fun ab => f ab.1 ab.2).sum

/-- `Convex.GetCenterCoord1()` from convex.go: the shoelace-style sums over
consecutive vertex pairs (the closing pair `(last, first)` is not
included), with Go's truncated integer divisions. -/
def Convex.GetCenterCoord1 (c : Convex) : Coord :=
  let S := (chainSum shoelaceTerm c.vertices).tdiv 2
  ⟨(chainSum centerXTerm c.vertices).tdiv (6 * S),
    (chainSum centerZTerm c.vertices).tdiv (6 * S)⟩

/-- Modelled from the spec: "the area-weighted barycenter via the
shoelace-derived formula; the latter divides by six times the signed area".
The cyclic shoelace sums of the polygon are taken over the explicitly
closed vertex list `l ++ l.take 1`, exactly over `ℚ`. -/
def specShoelaceArea (l : List Vertice) : ℚ :=
  ((chainSum shoelaceTerm (l ++ l.take 1) : ℤ) : ℚ) / 2

/-- Modelled from the spec: the area-weighted barycenter
`(Σ(xᵢ+xᵢ₊₁)·cᵢ, Σ(zᵢ+zᵢ₊₁)·cᵢ) / (6·A)` with `cᵢ` the cyclic shoelace
terms and `A` the signed area. -/
def specBarycenter (l : List Vertice) : ℚ × ℚ :=
  (((chainSum centerXTerm (l ++ l.take 1) : ℤ) : ℚ) / (6 * specShoelaceArea l),
    ((chainSum centerZTerm (l ++ l.take 1) : ℤ) : ℚ) / (6 * specShoelaceArea l))

/-- Counterexample for C9 as stated: on the convex triangle
`(1,1),(4,1),(1,4)` (positive area `9/2`), `GetCenterCoord1` returns
`(1,1)`, whereas the area-weighted barycenter of the polygon by the
shoelace-derived formula is exactly `(2,2)`: the code leaves out the
closing-edge terms and truncates its integer divisions. -/
theorem getCenterCoord1_cex :
    Convex.GetCenterCoord1 ⟨0, [⟨1, ⟨1, 1⟩⟩, ⟨2, ⟨4, 1⟩⟩, ⟨3, ⟨1, 4⟩⟩], [], [], ⟨0, 0⟩⟩ =
      ⟨1, 1⟩ ∧
    specBarycenter [⟨1, ⟨1, 1⟩⟩, ⟨2, ⟨4, 1⟩⟩, ⟨3, ⟨1, 4⟩⟩] = (2, 2) ∧
    specShoelaceArea [⟨1, ⟨1, 1⟩⟩, ⟨2, ⟨4, 1⟩⟩, ⟨3, ⟨1, 4⟩⟩] ≠ 0 ∧
    (((Convex.GetCenterCoord1
          ⟨0, [⟨1, ⟨1, 1⟩⟩, ⟨2, ⟨4, 1⟩⟩, ⟨3, ⟨1, 4⟩⟩], [], [], ⟨0, 0⟩⟩).x : ℚ),
        ((Convex.GetCenterCoord1
          ⟨0, [⟨1, ⟨1, 1⟩⟩, ⟨2, ⟨4, 1⟩⟩, ⟨3, ⟨1, 4⟩⟩], [], [], ⟨0, 0⟩⟩).z : ℚ)) ≠
      specBarycenter [⟨1, ⟨1, 1⟩⟩, ⟨2, ⟨4, 1⟩⟩, ⟨3, ⟨1, 4⟩⟩] := by
  have e1 : chainSum shoelaceTerm ([⟨1, ⟨1, 1⟩⟩, ⟨2, ⟨4, 1⟩⟩, ⟨3, ⟨1, 4⟩⟩] ++
      List.take 1 [(⟨1, ⟨1, 1⟩⟩ : Vertice), ⟨2, ⟨4, 1⟩⟩, ⟨3, ⟨1, 4⟩⟩]) = 9 := by decide
  have e2 : chainSum centerXTerm ([⟨1, ⟨1, 1⟩⟩, ⟨2, ⟨4, 1⟩⟩, ⟨3, ⟨1, 4⟩⟩] ++
      List.take 1 [(⟨1, ⟨1, 1⟩⟩ : Vertice), ⟨2, ⟨4, 1⟩⟩, ⟨3, ⟨1, 4⟩⟩]) = 54 := by decide
  have e3 : chainSum centerZTerm ([⟨1, ⟨1, 1⟩⟩, ⟨2, ⟨4, 1⟩⟩, ⟨3, ⟨1, 4⟩⟩] ++
      List.take 1 [(⟨1, ⟨1, 1⟩⟩ : Vertice), ⟨2, ⟨4, 1⟩⟩, ⟨3, ⟨1, 4⟩⟩]) = 54 := by decide
  have hcode : Convex.GetCenterCoord1
      ⟨0, [⟨1, ⟨1, 1⟩⟩, ⟨2, ⟨4, 1⟩⟩, ⟨3, ⟨1, 4⟩⟩], [], [], ⟨0, 0⟩⟩ = ⟨1, 1⟩ := by decide
  have hspec : specBarycenter [⟨1, ⟨1, 1⟩⟩, ⟨2, ⟨4, 1⟩⟩, ⟨3, ⟨1, 4⟩⟩] = ((2 : ℚ), (2 : ℚ)) := by
    unfold specBarycenter specShoelaceArea
    rw [e1, e2, e3]
    norm_num
  refine ⟨hcode, hspec, ?_, ?_⟩
  · unfold specShoelaceArea
    rw [e1]
    norm_num
  · rw [hcode, hspec]
    intro hq
    rw [Prod.ext_iff] at hq
    norm_num at hq

/-- C9 (amended): `GetCenterCoord1` evaluates the shoelace-derived
barycenter sums over consecutive vertex pairs only, without the closing
edge, using truncated integer divisions.  On a vertex list that is
explicitly closed (first vertex repeated at the end), with nonzero signed
area and exact divisions, it returns exactly the area-weighted barycenter
dividing by six times the signed area; a zero-area polygon makes the
divisor zero (undefined in Go). -/
theorem getCenterCoord1_closed_barycenter (c : Convex) (l : List Vertice)
    (hc : c.vertices = l ++ l.take 1)
    (hS0 : chainSum shoelaceTerm c.vertices ≠ 0)
    (h2 : (2 : ℤ) ∣ chainSum shoelaceTerm c.vertices)
    (hx : 6 * ((chainSum shoelaceTerm c.vertices).tdiv 2) ∣ chainSum centerXTerm c.vertices)
    (hz : 6 * ((chainSum shoelaceTerm c.vertices).tdiv 2) ∣ chainSum centerZTerm c.vertices) :
    (((c.GetCenterCoord1).x : ℚ), ((c.GetCenterCoord1).z : ℚ)) = specBarycenter l := by
  obtain ⟨S, hS⟩ := h2
  obtain ⟨kx, hkx⟩ := hx
  obtain ⟨kz, hkz⟩ := hz
  have htd : (chainSum shoelaceTerm c.vertices).tdiv 2 = S := by
    rw [hS, Int.mul_tdiv_cancel_left _ (by norm_num)]
  have hSne : S ≠ 0 := by
    intro h0
    exact hS0 (by rw [hS, h0, mul_zero])
  have hA : specShoelaceArea l = (S : ℚ) := by
    unfold specShoelaceArea
    rw [← hc, hS]
    push_cast
    ring
  have h6S : (6 : ℤ) * S ≠ 0 := by
    intro h0
    rcases mul_eq_zero.mp h0 with h | h
    · norm_num at h
    · exact hSne h
  have hkx' : chainSum centerXTerm c.vertices = 6 * S * kx := by rw [hkx, htd]
  have hkz' : chainSum centerZTerm c.vertices = 6 * S * kz := by rw [hkz, htd]
  have hgc : c.GetCenterCoord1 = ⟨kx, kz⟩ := by
    simp only [Convex.GetCenterCoord1]
    rw [htd, hkx', hkz', Int.mul_tdiv_cancel_left _ h6S, Int.mul_tdiv_cancel_left _ h6S]
  have h6SQ : ((6 : ℚ) * (S : ℚ)) ≠ 0 := by
    intro h0
    apply h6S
    rcases mul_eq_zero.mp h0 with h | h
    · norm_num at h
    · exact mul_eq_zero_of_right 6 (by exact_mod_cast h)
  rw [hgc]
  unfold specBarycenter
  rw [hA, ← hc, hkx', hkz']
  simp only [Prod.mk.injEq]
  constructor
  · push_cast
    rw [mul_comm ((6 : ℚ) * (S : ℚ)) (kx : ℚ), mul_div_assoc, div_self h6SQ, mul_one]
  · push_cast
    rw [mul_comm ((6 : ℚ) * (S : ℚ)) (kz : ℚ), mul_div_assoc, div_self h6SQ, mul_one]

/-- Witness for C9: the explicitly closed unit square scaled by 6, whose
divisions are exact; the code result `(3,3)` matches the barycenter. -/
theorem getCenterCoord1_closed_barycenter_witness :
    (((Convex.GetCenterCoord1
          ⟨0, [⟨1, ⟨0, 0⟩⟩, ⟨2, ⟨6, 0⟩⟩, ⟨3, ⟨6, 6⟩⟩, ⟨4, ⟨0, 6⟩⟩, ⟨1, ⟨0, 0⟩⟩], [], [],
            ⟨0, 0⟩⟩).x : ℚ),
        ((Convex.GetCenterCoord1
          ⟨0, [⟨1, ⟨0, 0⟩⟩, ⟨2, ⟨6, 0⟩⟩, ⟨3, ⟨6, 6⟩⟩, ⟨4, ⟨0, 6⟩⟩, ⟨1, ⟨0, 0⟩⟩], [], [],
            ⟨0, 0⟩⟩).z : ℚ)) =
      specBarycenter [⟨1, ⟨0, 0⟩⟩, ⟨2, ⟨6, 0⟩⟩, ⟨3, ⟨6, 6⟩⟩, ⟨4, ⟨0, 6⟩⟩] :=
  getCenterCoord1_closed_barycenter
    ⟨0, [⟨1, ⟨0, 0⟩⟩, ⟨2, ⟨6, 0⟩⟩, ⟨3, ⟨6, 6⟩⟩, ⟨4, ⟨0, 6⟩⟩, ⟨1, ⟨0, 0⟩⟩], [], [], ⟨0, 0⟩⟩
    [⟨1, ⟨0, 0⟩⟩, ⟨2, ⟨6, 0⟩⟩, ⟨3, ⟨6, 6⟩⟩, ⟨4, ⟨0, 6⟩⟩]
    (by decide) (by decide) (by decide) (by decide) (by decide)

/-- `Convex.CounterClockWiseSort()` from convex.go, as a pure function on
the vertex list: reverse it when the first three vertices turn clockwise. -/
def CounterClockWiseSort (vertices : List Vertice) : List Vertice :=
  if CrossProduct (vertices.getD 0 default) (vertices.getD 1 default)
      (vertices.getD 2 default) < 0 then
    vertices.reverse
  else vertices

/-- The ray-casting loop of `Convex.IsCoordInside1` (convex.go), iterating
over the edge from `vertices[j]` to `vertices[i]` with `j = i-1` (wrapping
to the last vertex for `i = 0`); Go's `/` on machine integers is `tdiv`,
and its min/max swap of the edge bounds is written with `min`/`max`. -/
def rayCastAux (vs : List Vertice) (x z : ℤ) : List ℕ → Bool → Bool
  | [], isIn => isIn
  | i :: rest, isIn =>
    let n := vs.length
    let j := if i = 0 then n - 1 else i - 1
    let vi := (vs.getD i default).coord
    let vj := (vs.getD j default).coord
    let xmin := min vi.x vj.x
    let xmax := max vi.x vj.x
    let zmin := min vi.z vj.z
    let zmax := max vi.z vj.z
    if vj.z = vi.z then
      if z = vi.z ∧ xmin ≤ x ∧ x ≤ xmax then true
      else rayCastAux vs x z rest isIn
    else
      let xt := ((vj.x - vi.x) * (z - vi.z)).tdiv (vj.z - vi.z) + vi.x
      if xt = x ∧ zmin ≤ z ∧ z ≤ zmax then true
      else if x < xt ∧ zmin ≤ z ∧ z < zmax then rayCastAux vs x z rest (!isIn)
      else rayCastAux vs x z rest isIn

/-- `Convex.IsCoordInside1(p)` from convex.go: with exactly one merge
triangle it delegates to that triangle's containment test; otherwise it
ray-casts over the counter-clockwise-sorted vertex list (the Go method
sorts `c.Vertices` in place; the pure model computes on the sorted copy,
which yields the same result). -/
def Convex.IsCoordInside1 (c : Convex) (p : Coord) : Bool :=
  if c.mergeTriangles.length = 1 then
    (c.mergeTriangles.getD 0 ⟨0, [], [], ⟨0, 0⟩⟩).IsCoordInside p
  else
    let vs := CounterClockWiseSort c.vertices
    rayCastAux vs p.x p.z (List.range vs.length) false

/-- The binary-search loop of `Convex.IsCoordInside2` (convex.go).  The Go
`for e != s+1` loop shrinks `e - s` by at least one per iteration, so
running it on fuel `e - s` reaches the loop exit exactly. -/
def binSearchLoop (vs : List Vertice) (target : Vertice) (isCCW : Bool) :
    ℕ → ℕ → ℕ → ℕ × ℕ
  | 0, s, e => (s, e)
  | fuel + 1, s, e =>
    if e = s + 1 then (s, e)
    else
      let m := (s + e) / 2
      if decide (CrossProduct target (vs.getD m default) (vs.getD 0 default) > 0) == isCCW then
        binSearchLoop vs target isCCW fuel s m
      else
        binSearchLoop vs target isCCW fuel m e

/-- `Convex.IsCoordInside2(p)` from convex.go: boundary check against the
two edges incident to vertex 0, the betweenness rejection, then the binary
search.  Go compares the float lengths `|p-v0| <= |edge|`; on nonnegative
reals this is equivalent to comparing the exact squared integer lengths,
which is how it is modelled. -/
def Convex.IsCoordInside2 (c : Convex) (p : Coord) : Bool :=
  let vs := c.vertices
  let numOfVertice := vs.length
  let target : Vertice := ⟨0, p⟩
  let vec1 := NewVector (vs.getD 0 default).coord (vs.getD 1 default).coord
  let vec2 := NewVector (vs.getD 0 default).coord (vs.getD (numOfVertice - 1) default).coord
  let vec2Coord := NewVector (vs.getD 0 default).coord p
  let cp1 := vec1.Cross vec2Coord
  let cp2 := vec2.Cross vec2Coord
  let isCounterClockwise : Bool := decide (cp1 > 0)
  if (cp1 = 0 ∧ vec2Coord.LengthSquared ≤ vec1.LengthSquared) ∨
      (cp2 = 0 ∧ vec2Coord.LengthSquared ≤ vec2.LengthSquared) then true
  else if decide (cp1 > 0) == decide (cp2 > 0) then false
  else
    let se := binSearchLoop vs target isCounterClockwise (numOfVertice - 1 - 1) 1
      (numOfVertice - 1)
    let vec3 := NewVector (vs.getD se.1 default).coord (vs.getD se.2 default).coord
    let vecS2Coord := NewVector (vs.getD se.1 default).coord p
    decide (vec3.Cross vecS2Coord > 0) == isCounterClockwise

/-- `Convex.IsCoordInside(p)` from convex.go: the linear half-plane scan,
fixing the orientation from the first edge and the query point and
demanding every later edge agree. -/
def Convex.IsCoordInside (c : Convex) (p : Coord) : Bool :=
  let vs := c.vertices
  let numOfVertice := vs.length
  let vec1 := NewVector (vs.getD 0 default).coord (vs.getD 1 default).coord
  let vec2 := NewVector (vs.getD 0 default).coord p
  let isCounterClockwise : Bool := decide (vec1.Cross vec2 > 0)
  (List.range (numOfVertice - 1)).all fun k =>
    let i := k + 1
    let w1 := NewVector (vs.getD i default).coord
      (vs.getD ((i + 1) % numOfVertice) default).coord
    let w2 := NewVector (vs.getD i default).coord p
    decide (w1.Cross w2 > 0) == isCounterClockwise

lemma crossZ_cyclic (a b q : Coord) :
    (NewVector q a).Cross (NewVector q b) = (NewVector a b).Cross (NewVector a q) := by
  simp only [NewVector, Vector.Cross]
  ring

lemma crossZ_antisymm (a b q : Coord) :
    (NewVector a b).Cross (NewVector a q) = -((NewVector b a).Cross (NewVector b q)) := by
  simp only [NewVector, Vector.Cross]
  ring

lemma ite_true_bool (P : Prop) [Decidable P] (x : Bool) :
    ((if P then true else x) = true) ↔ (P ∨ x = true) := by
  by_cases h : P <;> simp [h]

lemma ite_false_bool (P : Prop) [Decidable P] (x : Bool) :
    ((if P then false else x) = true) ↔ (¬P ∧ x = true) := by
  by_cases h : P <;> simp [h]

lemma binSearchLoop_one (vs : List Vertice) (t : Vertice) (ccw : Bool) :
    binSearchLoop vs t ccw 1 1 2 = (1, 2) := rfl

/-- Counterexample for C1 as stated: for the singleton convex built by
`NewConvex` from the triangle `(0,0),(2,0),(0,2)` and the boundary point
`(1,0)` (on the first edge), the half-plane scan `IsCoordInside` answers
`false` while `IsCoordInside1` (which delegates to the triangle test) and
`IsCoordInside2` (whose collinear branch is boundary-inclusive) both answer
`true`: the three algorithms do not agree on boundary points. -/
theorem insideAlgorithms_disagree_cex :
    (NewConvex ⟨5, [⟨1, ⟨0, 0⟩⟩, ⟨2, ⟨2, 0⟩⟩, ⟨3, ⟨0, 2⟩⟩], [], ⟨0, 0⟩⟩ 7).IsCoordInside ⟨1, 0⟩ =
      false ∧
    (NewConvex ⟨5, [⟨1, ⟨0, 0⟩⟩, ⟨2, ⟨2, 0⟩⟩, ⟨3, ⟨0, 2⟩⟩], [], ⟨0, 0⟩⟩ 7).IsCoordInside1 ⟨1, 0⟩ =
      true ∧
    (NewConvex ⟨5, [⟨1, ⟨0, 0⟩⟩, ⟨2, ⟨2, 0⟩⟩, ⟨3, ⟨0, 2⟩⟩], [], ⟨0, 0⟩⟩ 7).IsCoordInside2 ⟨1, 0⟩ =
      true := by
  decide

/-- C1 (amended): for a convex freshly built by `NewConvex` from a triangle
(the polygon every merge sequence starts from; note that `MergeTriangle`
never extends `MergeTriangles`, so `IsCoordInside1` keeps testing the
original triangle after merges), the three containment algorithms agree at
every query point whose orientation against each of the three edge lines is
nonzero — that is, everywhere except on the edge lines themselves, where
they may disagree (see the counterexample). -/
theorem insideAlgorithms_agree_singleton (w0 w1 w2 : Vertice) (tidx cidx : ℤ)
    (eids : List ℤ) (ctr p : Coord)
    (hA : (NewVector w0.coord w1.coord).Cross (NewVector w0.coord p) ≠ 0)
    (hB : (NewVector w1.coord w2.coord).Cross (NewVector w1.coord p) ≠ 0)
    (hC : (NewVector w2.coord w0.coord).Cross (NewVector w2.coord p) ≠ 0) :
    ((NewConvex ⟨tidx, [w0, w1, w2], eids, ctr⟩ cidx).IsCoordInside p =
      (NewConvex ⟨tidx, [w0, w1, w2], eids, ctr⟩ cidx).IsCoordInside1 p) ∧
    ((NewConvex ⟨tidx, [w0, w1, w2], eids, ctr⟩ cidx).IsCoordInside p =
      (NewConvex ⟨tidx, [w0, w1, w2], eids, ctr⟩ cidx).IsCoordInside2 p) := by
  constructor
  · rw [Bool.eq_iff_iff]
    dsimp only [Convex.IsCoordInside, Convex.IsCoordInside1, Triangle.IsCoordInside, NewConvex,
      List.getD_cons_zero, List.getD_cons_succ, List.length_cons, List.length_nil,
      Nat.reduceAdd, Nat.reduceSub, Nat.reduceMod]
    rw [show (List.range 2) = [0, 1] from rfl, if_pos rfl]
    dsimp only [List.all_cons, List.all_nil, List.getD_cons_zero, List.getD_cons_succ,
      Nat.reduceAdd, Nat.reduceMod]
    rw [ite_false_bool]
    simp only [Bool.and_eq_true, beq_iff_eq, decide_eq_decide, and_true, bne_iff_ne, ne_eq,
      not_not]
    rw [crossZ_cyclic w0.coord w1.coord p, crossZ_cyclic w1.coord w2.coord p,
      crossZ_cyclic w2.coord w0.coord p]
    omega
  · rw [Bool.eq_iff_iff]
    dsimp only [Convex.IsCoordInside, Convex.IsCoordInside2, NewConvex,
      List.getD_cons_zero, List.getD_cons_succ, List.length_cons, List.length_nil,
      Nat.reduceAdd, Nat.reduceSub, Nat.reduceMod, binSearchLoop_one]
    rw [show (List.range 2) = [0, 1] from rfl]
    dsimp only [List.all_cons, List.all_nil, List.getD_cons_zero, List.getD_cons_succ,
      Nat.reduceAdd, Nat.reduceMod]
    rw [ite_true_bool, ite_false_bool]
    simp only [Bool.and_eq_true, beq_iff_eq, decide_eq_decide, and_true, Bool.true_eq,
      Bool.false_eq]
    rw [crossZ_antisymm w0.coord w2.coord p]
    omega

/-- Witness for C1: the point `(3,3)` lies strictly inside the triangle
`(0,0),(10,0),(0,10)` and off its three edge lines; all three algorithms
agree there. -/
theorem insideAlgorithms_agree_singleton_witness :
    ((NewConvex ⟨5, [⟨1, ⟨0, 0⟩⟩, ⟨2, ⟨10, 0⟩⟩, ⟨3, ⟨0, 10⟩⟩], [], ⟨0, 0⟩⟩ 7).IsCoordInside
        ⟨3, 3⟩ =
      (NewConvex ⟨5, [⟨1, ⟨0, 0⟩⟩, ⟨2, ⟨10, 0⟩⟩, ⟨3, ⟨0, 10⟩⟩], [], ⟨0, 0⟩⟩ 7).IsCoordInside1
        ⟨3, 3⟩) ∧
    ((NewConvex ⟨5, [⟨1, ⟨0, 0⟩⟩, ⟨2, ⟨10, 0⟩⟩, ⟨3, ⟨0, 10⟩⟩], [], ⟨0, 0⟩⟩ 7).IsCoordInside
        ⟨3, 3⟩ =
      (NewConvex ⟨5, [⟨1, ⟨0, 0⟩⟩, ⟨2, ⟨10, 0⟩⟩, ⟨3, ⟨0, 10⟩⟩], [], ⟨0, 0⟩⟩ 7).IsCoordInside2
        ⟨3, 3⟩) :=
  insideAlgorithms_agree_singleton ⟨1, ⟨0, 0⟩⟩ ⟨2, ⟨10, 0⟩⟩ ⟨3, ⟨0, 10⟩⟩ 5 7 [] ⟨0, 0⟩ ⟨3, 3⟩
    (by decide) (by decide) (by decide)

/-- `Segment` from segment.go. -/
structure Segment where
  A : Coord
  B : Coord
  deriving DecidableEq, Repr

/-- `Segment.ToVector()` from segment.go. -/
def Segment.ToVector (s : Segment) : Vector := NewVector s.A s.B

/-- `Segment.ClosestPoint(p)` from segment.go (legacy copy): clamped
projection.  This definition is the exact-rational idealization: every
float64 operation is replaced by exact `ℚ` arithmetic, and
`int32(float64(ab.X)*t)` truncates toward zero (`ratTrunc`).  The program
itself rounds every float64 operation to 53 significand bits, and that
rounding changes results — see `Segment.ClosestPointF`, the same function
under the program's float64 semantics, and the C7 theorem for an
on-segment point where the two differ. -/
def Segment.ClosestPoint (s : Segment) (p : Coord) : Coord :=
  let ab := NewVector s.A s.B
  let ap := NewVector s.A p
  let abLenSq : ℚ := ((ab.LengthSquared : ℤ) : ℚ)
  if abLenSq = 0 then s.A
  else
    let t : ℚ := ((ap.Dot ab : ℤ) : ℚ) / abLenSq
    if t < 0 then s.A
    else if t > 1 then s.B
    else ⟨s.A.x + ratTrunc ((ab.x : ℚ) * t), s.A.z + ratTrunc ((ab.z : ℚ) * t)⟩

section RealModel

open scoped Classical

/-- `CalDstCoordToCoord` from coord.go, over `ℝ`. -/
noncomputable def CalDstCoordToCoord (c1 c2 : Coord) : ℝ :=
  Real.sqrt ((((c1.x - c2.x) * (c1.x - c2.x) + (c1.z - c2.z) * (c1.z - c2.z) : ℤ)) : ℝ)

end RealModel

/-- Binade normalization for IEEE-754 binary64 rounding: scales the
positive ratio `a / b` by powers of two (doubling `a` or `b` while
adjusting the exponent `e`) until `a / b` lies in `[2^52, 2^53)`; the
represented value `(a / b) * 2 ^ e` is invariant.  Fuel-based so the
kernel can evaluate it; 2200 steps cover the entire double-precision
exponent range. -/
def floatNormLoop : ℕ → ℤ → ℤ → ℤ → ℤ × ℤ × ℤ
  | 0, a, b, e => (a, b, e)
  | fuel + 1, a, b, e =>
    if a < 4503599627370496 * b then floatNormLoop fuel (2 * a) b (e - 1)
    else if 9007199254740992 * b ≤ a then floatNormLoop fuel a (2 * b) (e + 1)
    else (a, b, e)

/-- Rounding of the positive ratio `a / b` to the nearest integer, ties
to even: the IEEE-754 round-to-nearest-even rule applied to a mantissa
scaled into `[2^52, 2^53)`. -/
def roundMantissa (a b : ℤ) : ℤ :=
  let q := a.tdiv b
  let r := a - q * b
  if b < 2 * r then q + 1
  else if 2 * r < b then q
  else if q % 2 = 0 then q else q + 1

/-- The float64 rounding function: the exact ratio `num / den` is rounded
to the nearest IEEE-754 binary64 value (53 significand bits, round to
nearest, ties to even) and returned again as an exact integer ratio with
positive denominator.  Faithful for ratios with nonzero denominator in
the binary64 normal range (no overflow or subnormals, which the map
kernel's coordinate magnitudes never reach). -/
def floatRoundRatio (num den : ℤ) : ℤ × ℤ :=
  if num = 0 then (0, 1)
  else
    let sgn : ℤ := if (num < 0) = (den < 0) then 1 else -1
    let nbe := floatNormLoop 2200 num.natAbs den.natAbs 0
    let m := roundMantissa nbe.1 nbe.2.1
    let e := nbe.2.2
    if 0 ≤ e then (sgn * m * 2 ^ e.toNat, 1) else (sgn * m, 2 ^ (-e).toNat)

/-- float64 division: IEEE-754 requires the correctly rounded exact
quotient. -/
def floatDivR (x y : ℤ × ℤ) : ℤ × ℤ := floatRoundRatio (x.1 * y.2) (x.2 * y.1)

/-- float64 multiplication: the correctly rounded exact product. -/
def floatMulR (x y : ℤ × ℤ) : ℤ × ℤ := floatRoundRatio (x.1 * y.1) (x.2 * y.2)

/-- Order on exact ratios with positive denominators; float64 comparison
is exact on the values the operands represent. -/
def ratioLt (x y : ℤ × ℤ) : Prop := x.1 * y.2 < y.1 * x.2

instance (x y : ℤ × ℤ) : Decidable (ratioLt x y) := by
  unfold ratioLt
  infer_instance

/-- `Segment.ClosestPoint(p)` from segment.go (legacy copy) under the
program's float64 semantics: every float64 value is carried as the exact
integer ratio it denotes, the `float64(...)` conversions of the integer
dot product and squared length round to the nearest binary64 value
(`floatRoundRatio`, exact below `2^53`), the division and the two
products round likewise, and the final `int32(...)` truncates toward
zero. -/
def Segment.ClosestPointF (s : Segment) (p : Coord) : Coord :=
  let ab := NewVector s.A s.B
  let ap := NewVector s.A p
  let abLenSq := floatRoundRatio ab.LengthSquared 1
  if abLenSq.1 = 0 then s.A
  else
    let t := floatDivR (floatRoundRatio (ap.Dot ab) 1) abLenSq
    if ratioLt t (0, 1) then s.A
    else if ratioLt (1, 1) t then s.B
    else
      let qx := floatMulR (floatRoundRatio ab.x 1) t
      let qz := floatMulR (floatRoundRatio ab.z 1) t
      ⟨s.A.x + qx.1.tdiv qx.2, s.A.z + qz.1.tdiv qz.2⟩

/-- C7: refuted by float64 rounding.  The grid point `(1, 0)` lies on the
segment `(0, 0)-(49, 0)` (zero cross product, dot product between `0`
and `|AB|²`, so projection parameter `t = 1/49 ∈ [0, 1]`), and the
exact-rational idealization of `ClosestPoint` returns the point itself;
but in the program `t = fl(49.0 / 2401.0)` and `49.0 * t` rounds to
`9007199254740991 / 9007199254740992 < 1`, the `int32` conversion
truncates that to `0`, and `ClosestPoint` returns `(0, 0) ≠ (1, 0)`. -/
theorem closestPointF_rounding_bug :
    ((NewVector ⟨0, 0⟩ ⟨49, 0⟩).Cross (NewVector ⟨0, 0⟩ ⟨1, 0⟩) = 0 ∧
      0 ≤ (NewVector ⟨0, 0⟩ ⟨1, 0⟩).Dot (NewVector ⟨0, 0⟩ ⟨49, 0⟩) ∧
      (NewVector ⟨0, 0⟩ ⟨1, 0⟩).Dot (NewVector ⟨0, 0⟩ ⟨49, 0⟩) ≤
        (NewVector ⟨0, 0⟩ ⟨49, 0⟩).LengthSquared) ∧
    Segment.ClosestPoint ⟨⟨0, 0⟩, ⟨49, 0⟩⟩ ⟨1, 0⟩ = ⟨1, 0⟩ ∧
    Segment.ClosestPointF ⟨⟨0, 0⟩, ⟨49, 0⟩⟩ ⟨1, 0⟩ = ⟨0, 0⟩ ∧
    Segment.ClosestPointF ⟨⟨0, 0⟩, ⟨49, 0⟩⟩ ⟨1, 0⟩ ≠ (⟨1, 0⟩ : Coord) := by
  refine ⟨by decide, ?_, by decide, by decide⟩
  unfold Segment.ClosestPoint
  norm_num [NewVector, Vector.LengthSquared, Vector.Dot, ratTrunc]



/-- `Circle` from circle.go. -/
structure Circle where
  center : Coord
  radius : ℤ
  deriving DecidableEq, Repr

section CircleModel

open scoped Classical

/-- The local `fDis` of `Circle.GetLineCross` (circle.go): the segment
length. -/
noncomputable def lineCrossFDis (s : Segment) : ℝ := CalDstCoordToCoord s.A s.B

/-- The local `dx` of `Circle.GetLineCross`: normalized direction. -/
noncomputable def lineCrossDx (s : Segment) : ℝ := ((s.B.x - s.A.x : ℤ) : ℝ) / lineCrossFDis s

/-- The local `dz` of `Circle.GetLineCross`. -/
noncomputable def lineCrossDz (s : Segment) : ℝ := ((s.B.z - s.A.z : ℤ) : ℝ) / lineCrossFDis s

/-- The local `a` of `Circle.GetLineCross`: signed projection of the
center onto the segment direction. -/
noncomputable def lineCrossA (c : Circle) (s : Segment) : ℝ :=
  ((c.center.x - s.A.x : ℤ) : ℝ) * lineCrossDx s + ((c.center.z - s.A.z : ℤ) : ℝ) * lineCrossDz s

/-- The discriminant `r2 - e2 + a2` of `Circle.GetLineCross`. -/
noncomputable def lineCrossDisc (c : Circle) (s : Segment) : ℝ :=
  ((c.radius * c.radius : ℤ) : ℝ) -
    (((c.center.x - s.A.x : ℤ) : ℝ) * ((c.center.x - s.A.x : ℤ) : ℝ) +
      ((c.center.z - s.A.z : ℤ) : ℝ) * ((c.center.z - s.A.z : ℤ) : ℝ)) +
    lineCrossA c s * lineCrossA c s

/-- Go's float-to-int64 conversion truncates toward zero. -/
noncomputable def truncR (x : ℝ) : ℤ := if 0 ≤ x then ⌊x⌋ else ⌈x⌉

/-- The candidate intersection point `{A.X + int64(t*dx), A.Z + int64(t*dz)}`
of `Circle.GetLineCross`. -/
noncomputable def lineCrossPt (s : Segment) (t : ℝ) : Coord :=
  ⟨s.A.x + truncR (t * lineCrossDx s), s.A.z + truncR (t * lineCrossDz s)⟩

/-- The acceptance test `t > -Epsilon && (t - fDis) < Epsilon` applied to
both candidate parameters in `Circle.GetLineCross`. -/
def acceptParam (ε fDis t : ℝ) : Prop := t > -ε ∧ t - fDis < ε

/-- `Circle.GetLineCross(s)` from circle.go, over `ℝ` with the `utility`
tolerance as parameter `ε` (`utility.Smaller(x, 0)` is `x < -ε`): reject
when the discriminant is below `-ε`; otherwise try `t1 = a - f` then
`t2 = a + f`, returning the first accepted candidate's truncated point. -/
noncomputable def Circle.GetLineCross (ε : ℝ) (c : Circle) (s : Segment) : Option Coord :=
  if lineCrossDisc c s < -ε then none
  else
    let f := Real.sqrt (lineCrossDisc c s)
    let t1 := lineCrossA c s - f
    let coord1 : Option Coord :=
      if acceptParam ε (lineCrossFDis s) t1 then some (lineCrossPt s t1) else none
    let t2 := lineCrossA c s + f
    let coord2 : Option Coord :=
      if acceptParam ε (lineCrossFDis s) t2 then some (lineCrossPt s t2) else none
    match coord1 with
    | some q => some q
    | none => coord2

/-- `Circle.IsIntersect(s)` from circle.go. -/
noncomputable def Circle.IsIntersect (ε : ℝ) (c : Circle) (s : Segment) : Bool :=
  (c.GetLineCross ε s).isSome

end CircleModel

/-- C5 (amended): `GetLineCross` reports no intersection when the
discriminant `r2 - e2 + a2` falls below `-ε`; otherwise, with
`f = sqrt(discriminant)`, a candidate parameter (`t1 = a - f` preferred
over `t2 = a + f`) is accepted exactly when `t > -ε ∧ t - fDis < ε`, the
first accepted candidate's truncated point is returned, and no
intersection is reported when neither candidate is accepted. -/
theorem getLineCross_acceptance (ε : ℝ) (c : Circle) (s : Segment) (hε : 0 < ε)
    (hAB : s.A ≠ s.B) :
    (lineCrossDisc c s < -ε → c.GetLineCross ε s = none) ∧
    (¬ lineCrossDisc c s < -ε →
      (acceptParam ε (lineCrossFDis s) (lineCrossA c s - Real.sqrt (lineCrossDisc c s)) →
        c.GetLineCross ε s =
          some (lineCrossPt s (lineCrossA c s - Real.sqrt (lineCrossDisc c s)))) ∧
      (¬ acceptParam ε (lineCrossFDis s) (lineCrossA c s - Real.sqrt (lineCrossDisc c s)) →
        acceptParam ε (lineCrossFDis s) (lineCrossA c s + Real.sqrt (lineCrossDisc c s)) →
        c.GetLineCross ε s =
          some (lineCrossPt s (lineCrossA c s + Real.sqrt (lineCrossDisc c s)))) ∧
      (¬ acceptParam ε (lineCrossFDis s) (lineCrossA c s - Real.sqrt (lineCrossDisc c s)) →
        ¬ acceptParam ε (lineCrossFDis s) (lineCrossA c s + Real.sqrt (lineCrossDisc c s)) →
        c.GetLineCross ε s = none)) := by
  unfold Circle.GetLineCross
  refine ⟨fun h => by rw [if_pos h], fun h => ⟨fun h1 => ?_, fun h1 h2 => ?_, fun h1 h2 => ?_⟩⟩
  · rw [if_neg h]
    simp only [if_pos h1]
  · rw [if_neg h]
    simp only [if_neg h1, if_pos h2]
  · rw [if_neg h]
    simp only [if_neg h1, if_neg h2]



/-- Counterexample for C5 as stated: on the circle centered `(100,100)`
with radius `50` and the segment `(50,50)-(150,150)`, `IsIntersect` is
true and `GetLineCross` returns the point `(64,64)` — whose distance from
the center is `36*sqrt 2 ≈ 50.91`, more than half a unit away from the
radius `50`, so not "at distance 50 within floating tolerance": the
returned point is truncated to the grid before the distance is taken. -/
theorem getLineCross_distance_cex :
    Circle.GetLineCross (1 / 1000000) ⟨⟨100, 100⟩, 50⟩ ⟨⟨50, 50⟩, ⟨150, 150⟩⟩ =
      some ⟨64, 64⟩ ∧
    Circle.IsIntersect (1 / 1000000) ⟨⟨100, 100⟩, 50⟩ ⟨⟨50, 50⟩, ⟨150, 150⟩⟩ = true ∧
    CalDstCoordToCoord ⟨64, 64⟩ ⟨100, 100⟩ > 50 + 1 / 2 := by
  have hs2 : Real.sqrt 2 * Real.sqrt 2 = 2 := Real.mul_self_sqrt (by norm_num)
  have hs2pos : 0 < Real.sqrt 2 := Real.sqrt_pos.mpr (by norm_num)
  have hs2gt : 7 / 5 < Real.sqrt 2 := by
    rw [show (7 / 5 : ℝ) < Real.sqrt 2 ↔ (7 / 5 : ℝ) ^ 2 < 2 from Real.lt_sqrt (by norm_num)]
    norm_num
  have hs2lt : Real.sqrt 2 < 36 / 25 := by
    rw [Real.sqrt_lt' (by norm_num)]
    norm_num
  have hfd : lineCrossFDis ⟨⟨50, 50⟩, ⟨150, 150⟩⟩ = 100 * Real.sqrt 2 := by
    unfold lineCrossFDis CalDstCoordToCoord
    norm_num
    rw [show (20000 : ℝ) = 100 ^ 2 * 2 by norm_num, Real.sqrt_mul (by positivity),
      Real.sqrt_sq (by norm_num)]
  have hdx : lineCrossDx ⟨⟨50, 50⟩, ⟨150, 150⟩⟩ = Real.sqrt 2 / 2 := by
    unfold lineCrossDx
    rw [hfd]
    norm_num
    rw [div_eq_iff (by positivity)]
    nlinarith [hs2]
  have hdz : lineCrossDz ⟨⟨50, 50⟩, ⟨150, 150⟩⟩ = Real.sqrt 2 / 2 := by
    unfold lineCrossDz
    rw [hfd]
    norm_num
    rw [div_eq_iff (by positivity)]
    nlinarith [hs2]
  have ha : lineCrossA ⟨⟨100, 100⟩, 50⟩ ⟨⟨50, 50⟩, ⟨150, 150⟩⟩ = 50 * Real.sqrt 2 := by
    unfold lineCrossA
    rw [hdx, hdz]
    norm_num
    ring
  have hdisc : lineCrossDisc ⟨⟨100, 100⟩, 50⟩ ⟨⟨50, 50⟩, ⟨150, 150⟩⟩ = 2500 := by
    unfold lineCrossDisc
    rw [ha]
    norm_num
    nlinarith [hs2]
  have hf : Real.sqrt (lineCrossDisc ⟨⟨100, 100⟩, 50⟩ ⟨⟨50, 50⟩, ⟨150, 150⟩⟩) = 50 := by
    rw [hdisc, show (2500 : ℝ) = 50 ^ 2 by norm_num, Real.sqrt_sq (by norm_num)]
  have ht1dx : (50 * Real.sqrt 2 - 50) * (Real.sqrt 2 / 2) = 50 - 25 * Real.sqrt 2 := by
    nlinarith [hs2]
  have htr : truncR ((50 * Real.sqrt 2 - 50) * lineCrossDx ⟨⟨50, 50⟩, ⟨150, 150⟩⟩) = 14 := by
    rw [hdx, ht1dx]
    unfold truncR
    rw [if_pos (by nlinarith [hs2lt])]
    rw [Int.floor_eq_iff]
    constructor
    · push_cast
      nlinarith [hs2lt]
    · push_cast
      nlinarith [hs2gt]
  have htrz : truncR ((50 * Real.sqrt 2 - 50) * lineCrossDz ⟨⟨50, 50⟩, ⟨150, 150⟩⟩) = 14 := by
    rw [hdz, ht1dx]
    unfold truncR
    rw [if_pos (by nlinarith [hs2lt])]
    rw [Int.floor_eq_iff]
    constructor
    · push_cast
      nlinarith [hs2lt]
    · push_cast
      nlinarith [hs2gt]
  have hmain : Circle.GetLineCross (1 / 1000000) ⟨⟨100, 100⟩, 50⟩ ⟨⟨50, 50⟩, ⟨150, 150⟩⟩ =
      some ⟨64, 64⟩ := by
    unfold Circle.GetLineCross
    rw [if_neg (by rw [hdisc]; norm_num)]
    simp only [hf, ha, hfd]
    rw [if_pos ⟨by nlinarith [hs2gt], by nlinarith [hs2pos]⟩]
    unfold lineCrossPt
    rw [htr, htrz]
    rfl
  refine ⟨hmain, ?_, ?_⟩
  · unfold Circle.IsIntersect
    rw [hmain]
    rfl
  · unfold CalDstCoordToCoord
    norm_num
    rw [Real.lt_sqrt (by norm_num : (0 : ℝ) ≤ 101 / 2)]
    norm_num



/-- Witness for C5: a circle far from the segment is rejected through the
discriminant check. -/
theorem getLineCross_acceptance_witness :
    Circle.GetLineCross 1 ⟨⟨1000, 1000⟩, 1⟩ ⟨⟨0, 0⟩, ⟨10, 0⟩⟩ = none := by
  have hd : lineCrossDisc ⟨⟨1000, 1000⟩, 1⟩ ⟨⟨0, 0⟩, ⟨10, 0⟩⟩ < -(1 : ℝ) := by
    unfold lineCrossDisc lineCrossA lineCrossDx lineCrossDz lineCrossFDis CalDstCoordToCoord
    norm_num
    rw [show (100 : ℝ) = 10 ^ 2 by norm_num, Real.sqrt_sq (by norm_num)]
    norm_num
  exact (getLineCross_acceptance 1 ⟨⟨1000, 1000⟩, 1⟩ ⟨⟨0, 0⟩, ⟨10, 0⟩⟩ (by norm_num)
    (by decide)).1 hd


end Geo
